import Mathlib

/-!
Shallow embedding of `fabric_core.py`: the `Claim` record, the `MemoryVault`
store with its beacon-matching retrieval, the `Agent` prompt assembly, and
the `AgentFabric` orchestrator with its per-request trace.  Python dicts are
modelled as association lists with Python's item-assignment semantics
(replace the existing key in place, otherwise append at the end); Python's
unbounded `int` is modelled as `Int`; beacon values (`Any` in the source,
compared only with `==`) are modelled as `String`.  The external LLM call is
an explicit function parameter `llm : String → String`, matching the spec's
opaque `generate(prompt) -> text` collaborator.
-/

namespace FabricCore

/-- `claim.beacons`/`tag` dictionaries: string keys to (string-modelled) values. -/
abbrev Beacons := List (String × String)

/-- Lookup in a Python-dict-as-association-list: the value at the first
occurrence of the key, `none` when the key is absent (`d[k]` / `d.get(k)`). -/
def dictGet {α : Type} : List (String × α) → String → Option α
  | [], _ => none
  | p :: rest, k => if p.1 == k then some p.2 else dictGet rest k

/-- Python dict item assignment `d[k] = a`: replace the entry for an existing
key in place, otherwise append the new entry at the end. -/
def dictSet {α : Type} : List (String × α) → String → α → List (String × α)
  | [], k, a => [(k, a)]
  | p :: rest, k, a => if p.1 == k then (k, a) :: rest else p :: dictSet rest k a

/-- Python `k in d`. -/
def dictHasKey {α : Type} (d : List (String × α)) (k : String) : Bool :=
  (dictGet d k).isSome

/-- `Claim` from `fabric_core.py`: a compact, atomic fact with `content`,
a `beacons` tag dictionary and an `id`. -/
structure Claim where
  content : String
  beacons : Beacons
  id : String
deriving DecidableEq

/-- `MemoryVault`: a named store holding the ordered list `self._claims`. -/
structure MemoryVault where
  id : String
  claims : List Claim
deriving DecidableEq

/-- `MemoryVault.__init__`: a fresh vault holds no claims. -/
def MemoryVault.init (vault_id : String) : MemoryVault :=
  { id := vault_id, claims := [] }

/-- `MemoryVault.add_claim`: `self._claims.append(claim)`. -/
def MemoryVault.add_claim (v : MemoryVault) (claim : Claim) : MemoryVault :=
  { v with claims := v.claims ++ [claim] }

/-- Python tail slice `xs[-n:]` for an `int` `n`: for `0 < n` the last `n`
elements (all of them when `n` exceeds the length); for `n = 0` the whole
list (`xs[-0:]` is `xs[0:]`); for `n < 0` the list with its first `-n`
elements dropped (`xs[-n:]` is `xs[(-n):]`). -/
def pyTailSlice {α : Type} (xs : List α) (n : Int) : List α :=
  if 0 < n then xs.drop (xs.length - n.toNat) else xs.drop (-n).toNat

/-- The comprehension filter of `get_slice`:
`all(item in claim.beacons.items() for item in beacon_query.items())`. -/
def beaconSuperset (beacon_query : Beacons) (claim : Claim) : Bool :=
  beacon_query.all fun item => decide (item ∈ claim.beacons)

/-- `MemoryVault.get_slice`: filter the claims by perfect beacon matching and
return `matches[-max_claims:]` (the source's default argument is 5; the
orchestrator's call site uses that default). -/
def MemoryVault.get_slice (v : MemoryVault) (beacon_query : Beacons)
    (max_claims : Int) : List Claim :=
  let ms := v.claims.filter fun claim => beaconSuperset beacon_query claim
  pyTailSlice ms max_claims

/-- Matching as the specification words it: every key of `tag_query` is
present in the claim's tags with an equal value. -/
def specMatches (tag_query : Beacons) (claim : Claim) : Prop :=
  ∀ kv ∈ tag_query, kv ∈ claim.beacons

instance (tag_query : Beacons) (claim : Claim) :
    Decidable (specMatches tag_query claim) := by
  unfold specMatches
  infer_instance

/-- Retrieval as the specification words it: the claims matching `tag_query`,
restricted to the most recently appended `limit` of them (the tail of the
match sequence in insertion order); all of them when fewer than `limit`
match. -/
def MemoryVault.retrieveSpec (v : MemoryVault) (tag_query : Beacons)
    (limit : Int) : List Claim :=
  let ms := v.claims.filter fun claim => decide (specMatches tag_query claim)
  if ms.length ≤ limit.toNat then ms else ms.drop (ms.length - limit.toNat)

/-- State-passing form of `get_slice`: the method only reads `self._claims`
(the comprehension and the slice build new lists, nothing is assigned back),
so the post-state vault is the pre-state vault. -/
def MemoryVault.get_sliceS (v : MemoryVault) (beacon_query : Beacons)
    (max_claims : Int) : List Claim × MemoryVault :=
  (v.get_slice beacon_query max_claims, v)

/-- `Agent` from `fabric_core.py`: an id, a role prompt and the referenced
vault ids. -/
structure Agent where
  id : String
  role : String
  vault_ids : List String
deriving DecidableEq

/-- Concatenation of a list of strings (used to state the spec-side
rendering of context blocks). -/
def joined (l : List String) : String :=
  l.foldr (fun s acc => s ++ acc) ""

/-- One iteration of the context accumulation loop of `Agent.run`: a slice
with an empty claim list is skipped; otherwise a
`--- Context from {vault_id} ---` header is appended, then one
`- {content}` line per claim. -/
def contextStep (context : String) (p : String × List Claim) : String :=
  if p.2.isEmpty then context
  else p.2.foldl (fun c claim => c ++ "- " ++ claim.content ++ "\n")
    (context ++ "\n--- Context from " ++ p.1 ++ " ---\n")

/-- The context accumulation loop of `Agent.run`, starting from the empty
string. -/
def renderSlices (slices : List (String × List Claim)) : String :=
  slices.foldl contextStep ""

/-- The fallback context of `Agent.run` when no vault produced any claims. -/
def noInfoContext : String :=
  "\n--- No relevant information found in memory vaults. ---\n"

/-- The f-string template of `Agent.run`: role, verbatim query and the
context section. -/
def promptText (role query context : String) : String :=
  "\nYour Role: " ++ role ++ "\nUser's Query: \"" ++ query ++
    "\"\nRelevant Information:\n" ++ context ++
    "\nBased on your role and the provided information, generate a concise, partial response.\n"

/-- `Agent.run`: build the context from the slices, substitute the
no-information marker when it is empty, format the prompt and delegate to
the external generation collaborator `llm`. -/
def Agent.run (a : Agent) (llm : String → String) (query : String)
    (slices : List (String × List Claim)) : String :=
  let context := renderSlices slices
  let context2 := if context = "" then noInfoContext else context
  llm (promptText a.role query context2)

/-- Spec-side rendering of one non-empty slice: the vault-id header followed
by one line per claim's content, in the slice's given order. -/
def sliceBlock (vault_id : String) (claims : List Claim) : String :=
  "\n--- Context from " ++ vault_id ++ " ---\n" ++
    joined (claims.map fun claim => "- " ++ claim.content ++ "\n")

/-- Spec-side context: the rendering of every non-empty slice in order, or
the single no-information marker when every slice is empty. -/
def contextSpec (slices : List (String × List Claim)) : String :=
  if slices.all fun p => p.2.isEmpty then noInfoContext
  else joined ((slices.filter fun p => !p.2.isEmpty).map fun p => sliceBlock p.1 p.2)

/-- The per-request trace of `AgentFabric.handle_request`. -/
structure Trace where
  query : String
  woken_agents : List Agent
  base_beacons : Beacons
  slices_per_agent : List (String × List (String × List Claim))
  partial_results : List (String × String)
deriving DecidableEq

/-- The fresh trace written at the start of `handle_request`. -/
def initialTrace (query : String) : Trace :=
  { query := query, woken_agents := [], base_beacons := [],
    slices_per_agent := [], partial_results := [] }

/-- `AgentFabric`: the injected strategies, the two id-keyed registries and
the overwritten last trace (`none` until the first request). -/
structure AgentFabric where
  gatekeeper_strategy : String → List (String × Agent) → List Agent
  beacon_strategy : String → Beacons
  slice_augmentation_strategy : Agent → Beacons → Beacons
  agents : List (String × Agent)
  vaults : List (String × MemoryVault)
  last_trace : Option Trace

/-- `AgentFabric.__init__`: empty registries, no trace yet. -/
def AgentFabric.init (g : String → List (String × Agent) → List Agent)
    (b : String → Beacons) (s : Agent → Beacons → Beacons) : AgentFabric :=
  { gatekeeper_strategy := g, beacon_strategy := b,
    slice_augmentation_strategy := s, agents := [], vaults := [],
    last_trace := none }

/-- `register_agent`: `self._agents[agent.id] = agent`. -/
def AgentFabric.register_agent (f : AgentFabric) (agent : Agent) : AgentFabric :=
  { f with agents := dictSet f.agents agent.id agent }

/-- `register_vault`: `self._vaults[vault.id] = vault`. -/
def AgentFabric.register_vault (f : AgentFabric) (vault : MemoryVault) : AgentFabric :=
  { f with vaults := dictSet f.vaults vault.id vault }

/-- The slice-gathering loop body of `handle_request`: for each of the
agent's `vault_ids` that is present in the vault registry, record
`vault.get_slice(agent_beacons)` (absent ids are silently skipped); the
source's call uses `get_slice`'s default `max_claims = 5`. -/
def AgentFabric.agentSlices (f : AgentFabric) (agent_beacons : Beacons)
    (agent : Agent) : List (String × List Claim) :=
  agent.vault_ids.foldl
    (fun slices_for_agent vault_id =>
      match dictGet f.vaults vault_id with
      | some vault => dictSet slices_for_agent vault_id (vault.get_slice agent_beacons 5)
      | none => slices_for_agent)
    []

/-- One iteration of the per-agent loop of `handle_request`: augment the
base beacons, gather the slices, record them in the trace, run the agent,
record the partial result and append the labeled contribution. -/
def AgentFabric.agentStep (f : AgentFabric) (llm : String → String)
    (query : String) (base_beacons : Beacons) (acc : Trace × List String)
    (agent : Agent) : Trace × List String :=
  let slices_for_agent := f.agentSlices (f.slice_augmentation_strategy agent base_beacons) agent
  let partial_result := agent.run llm query slices_for_agent
  ({ acc.1 with
      slices_per_agent := dictSet acc.1.slices_per_agent agent.id slices_for_agent,
      partial_results := dictSet acc.1.partial_results agent.id partial_result },
    acc.2 ++ ["--- Contribution from " ++ agent.id ++ " ---\n" ++ partial_result])

/-- `handle_request`: fresh trace, selection, empty-selection short circuit,
beacon derivation, the per-agent loop in selection order, and the final
join with a blank-line separator.  Returns the response, the trace, and the
fabric with its `last_trace` overwritten. -/
def AgentFabric.handle_request (f : AgentFabric) (llm : String → String)
    (query : String) : String × Trace × AgentFabric :=
  let woken_agents := f.gatekeeper_strategy query f.agents
  let trace1 := { initialTrace query with woken_agents := woken_agents }
  if woken_agents.isEmpty then
    ("No relevant agent could be found to handle this request.", trace1,
      { f with last_trace := some trace1 })
  else
    let trace2 := { trace1 with base_beacons := f.beacon_strategy query }
    let res := woken_agents.foldl (f.agentStep llm query (f.beacon_strategy query)) (trace2, [])
    (String.intercalate "\n\n" res.2, res.1, { f with last_trace := some res.1 })

/-- The labeled contribution one selected agent adds to the output list. -/
def AgentFabric.agentContribution (f : AgentFabric) (llm : String → String)
    (query : String) (base_beacons : Beacons) (agent : Agent) : String :=
  "--- Contribution from " ++ agent.id ++ " ---\n" ++
    agent.run llm query (f.agentSlices (f.slice_augmentation_strategy agent base_beacons) agent)

/-! Concrete fixtures, drawn from the specification's §8 scenarios, used by
the closed witness and counterexample theorems. -/

/-- The first billing claim of the §8 scenario. -/
def billingClaim1 : Claim :=
  { content := "bill due", beacons := [("topic", "billing")], id := "c1" }

/-- The urgent billing claim of the §8 scenario. -/
def billingClaim2 : Claim :=
  { content := "bill overdue", beacons := [("topic", "billing"), ("urgent", "True")], id := "c2" }

/-- The shipping claim of the §8 scenario. -/
def shippingClaim : Claim :=
  { content := "parcel sent", beacons := [("topic", "shipping")], id := "c3" }

/-- The §8 scenario vault holding the three claims in insertion order. -/
def scenarioVault : MemoryVault :=
  { id := "V", claims := [billingClaim1, billingClaim2, shippingClaim] }

/-- A vault holding only the first billing claim (pre-append state). -/
def smallVault : MemoryVault :=
  { id := "V", claims := [billingClaim1] }

/-- Agent "A" of the witness fabric, referencing the registered vault. -/
def wAgentA : Agent := { id := "A", role := "roleA", vault_ids := ["V"] }

/-- Agent "B" of the witness fabric, referencing no vault. -/
def wAgentB : Agent := { id := "B", role := "roleB", vault_ids := [] }

/-- A generation collaborator that signals failure with the source's error
marker text. -/
def wLlmErr : String → String := fun _ => "[Error: LLM call failed.]"

/-- A witness fabric: both agents selected in order, base beacons derived
from the §8 scenario, pass-through augmentation. -/
def wFabric : AgentFabric :=
  { gatekeeper_strategy := fun _ _ => [wAgentA, wAgentB],
    beacon_strategy := fun _ => [("topic", "billing")],
    slice_augmentation_strategy := fun _ base => base,
    agents := [("A", wAgentA), ("B", wAgentB)],
    vaults := [("V", scenarioVault)],
    last_trace := none }

/-- A fabric whose selection strategy wakes no agent. -/
def eFabric : AgentFabric :=
  { gatekeeper_strategy := fun _ _ => [],
    beacon_strategy := fun _ => [("topic", "billing")],
    slice_augmentation_strategy := fun _ base => base,
    agents := [("A", wAgentA)],
    vaults := [("V", scenarioVault)],
    last_trace := none }

/-- First of two selected agents sharing the id "X" (references vault "V"). -/
def dupAgent1 : Agent := { id := "X", role := "r1", vault_ids := ["V"] }

/-- Second of two selected agents sharing the id "X" (references no vault). -/
def dupAgent2 : Agent := { id := "X", role := "r2", vault_ids := [] }

/-- A fabric whose selection returns two distinct agents with the same id,
so the second agent's slice mapping overwrites the first's trace entry. -/
def dupFabric : AgentFabric :=
  { gatekeeper_strategy := fun _ _ => [dupAgent1, dupAgent2],
    beacon_strategy := fun _ => [],
    slice_augmentation_strategy := fun _ base => base,
    agents := [("X", dupAgent1)],
    vaults := [("V", scenarioVault)],
    last_trace := none }

/-- A generation collaborator that always succeeds with a fixed text. -/
def okLlm : String → String := fun _ => "ok"

/-! Helper lemmas about the dictionary model. -/

/-- The code's comprehension filter agrees with the spec's superset matching. -/
theorem beaconSuperset_eq_decide (q : Beacons) (c : Claim) :
    beaconSuperset q c = decide (specMatches q c) := by
  rw [Bool.eq_iff_iff]
  simp [beaconSuperset, specMatches, List.all_eq_true]

/-- After `d[k] = a`, looking up `k` yields `a`. -/
theorem dictGet_dictSet_self {α : Type} (d : List (String × α)) (k : String) (a : α) :
    dictGet (dictSet d k a) k = some a := by
  induction d with
  | nil => simp [dictSet, dictGet]
  | cons p rest ih =>
    by_cases h : p.1 == k
    · simp [dictSet, dictGet, h]
    · simp [dictSet, dictGet, h, ih]

/-- After `d[k] = a`, looking up any other key is unchanged. -/
theorem dictGet_dictSet_ne {α : Type} (d : List (String × α)) (k k' : String) (a : α)
    (h : k' ≠ k) : dictGet (dictSet d k a) k' = dictGet d k' := by
  induction d with
  | nil => simp [dictSet, dictGet, Ne.symm h]
  | cons p rest ih =>
    by_cases hp : p.1 == k
    · have hpk : p.1 = k := by simpa using hp
      simp [dictSet, dictGet, hp, hpk, Ne.symm h]
    · simp [dictSet, dictGet, hp, ih]

/-- Key presence after `d[k] = a`. -/
theorem dictHasKey_dictSet_iff {α : Type} (d : List (String × α)) (k k' : String) (a : α) :
    dictHasKey (dictSet d k a) k' = true ↔ (k' = k ∨ dictHasKey d k' = true) := by
  by_cases h : k' = k
  · subst h
    simp [dictHasKey, dictGet_dictSet_self]
  · simp [dictHasKey, dictGet_dictSet_ne _ _ _ _ h, h]

/-- The keys after `d[k] = a` are the old keys together with `k`. -/
theorem mem_keys_dictSet {α : Type} (d : List (String × α)) (k : String) (a : α)
    (x : String) :
    x ∈ (dictSet d k a).map Prod.fst ↔ (x = k ∨ x ∈ d.map Prod.fst) := by
  induction d with
  | nil => simp [dictSet]
  | cons p rest ih =>
    by_cases hp : p.1 == k
    · have hpk : p.1 = k := by simpa using hp
      subst hpk
      simp only [dictSet, if_pos hp, List.map_cons, List.mem_cons]
      tauto
    · simp only [dictSet, if_neg hp, List.map_cons, List.mem_cons, ih]
      tauto

/-- `d[k] = a` keeps the keys pairwise distinct. -/
theorem nodup_keys_dictSet {α : Type} (d : List (String × α)) (k : String) (a : α)
    (h : (d.map Prod.fst).Nodup) : ((dictSet d k a).map Prod.fst).Nodup := by
  induction d with
  | nil => simp [dictSet]
  | cons p rest ih =>
    simp only [List.map_cons, List.nodup_cons] at h
    by_cases hp : p.1 == k
    · have hpk : p.1 = k := by simpa using hp
      subst hpk
      simp only [dictSet, if_pos hp, List.map_cons, List.nodup_cons]
      exact h
    · have hpk : p.1 ≠ k := by simpa using hp
      simp only [dictSet, if_neg hp, List.map_cons, List.nodup_cons]
      refine ⟨?_, ih h.2⟩
      intro hmem
      rcases (mem_keys_dictSet rest k a p.1).mp hmem with h1 | h2
      · exact hpk h1
      · exact h.1 h2

/-! Theorems settling the claims about the vault operations. -/

/-- C1: for every vault state, tag query and `limit >= 1`, `get_slice`
returns exactly the matching claims (tags a superset of the query under
exact key/value equality, the empty query matching every claim),
restricted to the most recently appended `limit` of them — the tail of the
match subsequence in insertion order, all of them when fewer than `limit`
match. -/
theorem get_slice_eq_retrieveSpec (v : MemoryVault) (q : Beacons) (limit : Int)
    (h : 1 ≤ limit) : v.get_slice q limit = v.retrieveSpec q limit := by
  simp only [MemoryVault.get_slice, MemoryVault.retrieveSpec, pyTailSlice,
    beaconSuperset_eq_decide]
  rw [if_pos (by omega : (0 : Int) < limit)]
  split
  · next hle =>
    have h0 : (v.claims.filter fun claim => decide (specMatches q claim)).length
        - limit.toNat = 0 := by omega
    rw [h0, List.drop_zero]
  · rfl

/-- Witness for C1 at the specification's §8 scenario vault. -/
theorem get_slice_eq_retrieveSpec_witness :
    scenarioVault.get_slice [("topic", "billing")] 5 =
      scenarioVault.retrieveSpec [("topic", "billing")] 5 :=
  get_slice_eq_retrieveSpec scenarioVault [("topic", "billing")] 5 (by decide)

/-- C6 counterexample: with `limit = 0`, `get_slice` does not return the
empty sequence — `matches[-0:]` is `matches[0:]`, the whole match list. -/
theorem nonpositive_limit_counterexample :
    scenarioVault.get_slice [] 0 ≠ [] := by decide

/-- C6 as amended: for `limit <= 0`, `get_slice` follows Python tail-slice
semantics and returns the match list with its first `-limit` elements
dropped; in particular `limit = 0` returns all matches, not none. -/
theorem get_slice_nonpositive_limit (v : MemoryVault) (q : Beacons) (limit : Int)
    (h : limit ≤ 0) :
    v.get_slice q limit =
      (v.claims.filter fun claim => beaconSuperset q claim).drop (-limit).toNat := by
  simp only [MemoryVault.get_slice, pyTailSlice]
  rw [if_neg (by omega)]

/-- Witness for the amended C6 at `limit = -1`. -/
theorem get_slice_nonpositive_limit_witness :
    scenarioVault.get_slice [] (-1) =
      (scenarioVault.claims.filter fun claim => beaconSuperset [] claim).drop
        (-(-1 : Int)).toNat :=
  get_slice_nonpositive_limit scenarioVault [] (-1) (by decide)

/-- C7: appending a claim that satisfies a query which previously returned
fewer than `limit` results extends that retrieval by exactly that claim, as
its most recent element. -/
theorem append_monotonic (v : MemoryVault) (c : Claim) (q : Beacons) (limit : Int)
    (hm : specMatches q c) (h1 : 1 ≤ limit)
    (hlt : ((v.get_slice q limit).length : Int) < limit) :
    (v.add_claim c).get_slice q limit = v.get_slice q limit ++ [c] := by
  have hc : beaconSuperset q c = true := by
    rw [beaconSuperset_eq_decide]
    exact decide_eq_true hm
  have hpos : (0 : Int) < limit := by omega
  simp only [MemoryVault.get_slice, MemoryVault.add_claim, pyTailSlice, if_pos hpos]
    at hlt ⊢
  rw [List.length_drop] at hlt
  have hlen : (v.claims.filter fun claim => beaconSuperset q claim).length
      < limit.toNat := by omega
  rw [List.filter_append]
  simp only [List.filter_cons, hc, if_pos, List.filter_nil]
  have h2 : ((v.claims.filter fun claim => beaconSuperset q claim) ++ [c]).length
      - limit.toNat = 0 := by
    simp only [List.length_append, List.length_cons, List.length_nil]
    omega
  have h3 : (v.claims.filter fun claim => beaconSuperset q claim).length
      - limit.toNat = 0 := by omega
  rw [h2, h3, List.drop_zero, List.drop_zero]

/-- Witness for C7: appending the urgent billing claim to the one-claim
vault extends the billing retrieval. -/
theorem append_monotonic_witness :
    (smallVault.add_claim billingClaim2).get_slice [("topic", "billing")] 5 =
      smallVault.get_slice [("topic", "billing")] 5 ++ [billingClaim2] :=
  append_monotonic smallVault billingClaim2 [("topic", "billing")] 5 (by decide)
    (by decide) (by decide)

/-- C8: retrieval is read-only and idempotent — in state-passing form the
post-state vault is the pre-state vault (the method performs no assignment),
and a second identical call returns the identical ordered sequence. -/
theorem get_slice_readonly_idempotent (v : MemoryVault) (q : Beacons) (limit : Int) :
    (v.get_sliceS q limit).2 = v ∧
    ((v.get_sliceS q limit).2.get_sliceS q limit).1 = (v.get_sliceS q limit).1 ∧
    (v.get_sliceS q limit).2.claims = v.claims :=
  ⟨rfl, rfl, rfl⟩

/-- C9: `add_claim` appends at the end, grows the sequence by exactly one,
keeps the vault id, and leaves every previously stored claim and their
relative order unchanged (no deduplication, no validation). -/
theorem add_claim_appends (v : MemoryVault) (c : Claim) :
    (v.add_claim c).claims = v.claims ++ [c] ∧
    (v.add_claim c).claims.length = v.claims.length + 1 ∧
    (v.add_claim c).claims.take v.claims.length = v.claims ∧
    (v.add_claim c).id = v.id := by
  refine ⟨rfl, ?_, ?_, rfl⟩
  · simp [MemoryVault.add_claim]
  · simp [MemoryVault.add_claim, List.take_left]

/-- C10: registration is last-write-wins and id-local — the registered id
maps to the new entry, every other id is unchanged, the other registry and
the last trace are untouched, and key distinctness is preserved, for both
`register_agent` and `register_vault`. -/
theorem register_last_write_wins (f : AgentFabric) (a : Agent) (v : MemoryVault) :
    dictGet (f.register_agent a).agents a.id = some a ∧
    (∀ k, k ≠ a.id → dictGet (f.register_agent a).agents k = dictGet f.agents k) ∧
    (f.register_agent a).vaults = f.vaults ∧
    (f.register_agent a).last_trace = f.last_trace ∧
    ((f.agents.map Prod.fst).Nodup → ((f.register_agent a).agents.map Prod.fst).Nodup) ∧
    dictGet (f.register_vault v).vaults v.id = some v ∧
    (∀ k, k ≠ v.id → dictGet (f.register_vault v).vaults k = dictGet f.vaults k) ∧
    (f.register_vault v).agents = f.agents ∧
    (f.register_vault v).last_trace = f.last_trace ∧
    ((f.vaults.map Prod.fst).Nodup → ((f.register_vault v).vaults.map Prod.fst).Nodup) :=
  ⟨dictGet_dictSet_self f.agents a.id a,
    fun k hk => dictGet_dictSet_ne f.agents a.id k a hk,
    rfl, rfl,
    fun h => nodup_keys_dictSet f.agents a.id a h,
    dictGet_dictSet_self f.vaults v.id v,
    fun k hk => dictGet_dictSet_ne f.vaults v.id k v hk,
    rfl, rfl,
    fun h => nodup_keys_dictSet f.vaults v.id v h⟩

/-! Helper lemmas about the context rendering of `Agent.run`. -/

/-- `joined` unfolds on a cons cell. -/
theorem joined_cons (s : String) (l : List String) : joined (s :: l) = s ++ joined l :=
  rfl

/-- The inner claim-line loop appends the joined lines to its accumulator. -/
theorem claim_lines_foldl (cs : List Claim) (acc : String) :
    cs.foldl (fun c claim => c ++ "- " ++ claim.content ++ "\n") acc
      = acc ++ joined (cs.map fun claim => "- " ++ claim.content ++ "\n") := by
  induction cs generalizing acc with
  | nil => simp [joined, String.append_empty]
  | cons c rest ih =>
    simp only [List.foldl_cons, List.map_cons, joined_cons, ih]
    simp [String.append_assoc]

/-- The outer slice loop appends the joined blocks of the non-empty slices
to its accumulator. -/
theorem contextStep_foldl (slices : List (String × List Claim)) (acc : String) :
    slices.foldl contextStep acc
      = acc ++ joined ((slices.filter fun p => !p.2.isEmpty).map
          fun p => sliceBlock p.1 p.2) := by
  induction slices generalizing acc with
  | nil => simp [joined, String.append_empty]
  | cons p rest ih =>
    by_cases hp : p.2.isEmpty
    · simp [List.foldl_cons, contextStep, List.filter_cons, hp, ih]
    · have hb : (!p.2.isEmpty) = true := by simp [hp]
      simp only [List.foldl_cons, contextStep, if_neg hp, List.filter_cons, hb,
        if_pos, List.map_cons, joined_cons]
      rw [claim_lines_foldl, ih]
      simp [sliceBlock, String.append_assoc]

/-- The code's context accumulation equals the spec's joined rendering of
the non-empty slices. -/
theorem renderSlices_eq (slices : List (String × List Claim)) :
    renderSlices slices
      = joined ((slices.filter fun p => !p.2.isEmpty).map
          fun p => sliceBlock p.1 p.2) := by
  rw [renderSlices, contextStep_foldl, String.empty_append]

/-- A rendered slice block is never the empty string (its header is not). -/
theorem sliceBlock_length_pos (vault_id : String) (cs : List Claim) :
    0 < (sliceBlock vault_id cs).length := by
  have h18 : (0 : Nat) < "\n--- Context from ".length := by decide
  simp only [sliceBlock, String.length_append]
  omega

/-- The accumulated context is empty exactly when every slice is empty —
the condition the source tests with `if not context`. -/
theorem renderSlices_empty_iff (slices : List (String × List Claim)) :
    renderSlices slices = "" ↔ (slices.all fun p => p.2.isEmpty) = true := by
  rw [renderSlices_eq]
  constructor
  · intro h
    rw [List.all_eq_true]
    by_contra hall
    push_neg at hall
    obtain ⟨p, hp, hpe⟩ := hall
    have hmem : p ∈ slices.filter fun p => !p.2.isEmpty :=
      List.mem_filter.mpr ⟨hp, by simp [hpe]⟩
    obtain ⟨q, qs, hq⟩ := List.exists_cons_of_ne_nil (List.ne_nil_of_mem hmem)
    have hlen := congrArg String.length h
    rw [hq, List.map_cons, joined_cons, String.length_append] at hlen
    have := sliceBlock_length_pos q.1 q.2
    simp at hlen
    omega
  · intro h
    have hnil : (slices.filter fun p => !p.2.isEmpty) = [] := by
      rw [List.filter_eq_nil_iff]
      intro p hp
      simp [List.all_eq_true.mp h p hp]
    rw [hnil]
    rfl

/-- C4: `Agent.run` assembles a single prompt embedding the agent's role,
the verbatim query and a context that renders every non-empty slice (header
plus one line per claim, in order), omits empty slices, and substitutes the
single no-information marker when every slice is empty, then delegates the
prompt to the generation collaborator. -/
theorem agent_run_prompt_spec (llm : String → String) (a : Agent) (query : String)
    (slices : List (String × List Claim)) :
    a.run llm query slices = llm (promptText a.role query (contextSpec slices)) := by
  simp only [Agent.run, contextSpec]
  by_cases h : (slices.all fun p => p.2.isEmpty) = true
  · rw [if_pos ((renderSlices_empty_iff slices).mpr h), if_pos h]
  · rw [if_neg (fun he => h ((renderSlices_empty_iff slices).mp he)), if_neg h,
      renderSlices_eq]

/-! Helper lemmas about the per-agent loop of `handle_request`. -/

/-- The per-agent loop appends one labeled contribution per agent, in loop
order, to the output list. -/
theorem foldl_agentStep_snd (f : AgentFabric) (llm : String → String)
    (query : String) (base : Beacons) :
    ∀ (agents : List Agent) (acc : Trace × List String),
      (agents.foldl (f.agentStep llm query base) acc).2
        = acc.2 ++ agents.map (f.agentContribution llm query base) := by
  intro agents
  induction agents with
  | nil => intro acc; simp
  | cons a rest ih =>
    intro acc
    rw [List.foldl_cons, ih]
    have h2 : (f.agentStep llm query base acc a).2
        = acc.2 ++ [f.agentContribution llm query base a] := rfl
    rw [h2]
    simp

/-- The per-agent loop records each agent's slice mapping in the trace under
the agent's id. -/
theorem foldl_agentStep_slices (f : AgentFabric) (llm : String → String)
    (query : String) (base : Beacons) :
    ∀ (agents : List Agent) (acc : Trace × List String),
      (agents.foldl (f.agentStep llm query base) acc).1.slices_per_agent
        = agents.foldl
            (fun d agent => dictSet d agent.id
              (f.agentSlices (f.slice_augmentation_strategy agent base) agent))
            acc.1.slices_per_agent := by
  intro agents
  induction agents with
  | nil => intro acc; rfl
  | cons a rest ih =>
    intro acc
    rw [List.foldl_cons, ih, List.foldl_cons]
    rfl

/-- The trace of a request with a non-empty selection maps each processed
agent id to its gathered slices, in loop order. -/
theorem handle_request_trace_slices (f : AgentFabric) (llm : String → String)
    (query : String) (h : f.gatekeeper_strategy query f.agents ≠ []) :
    ((f.handle_request llm query).2.1).slices_per_agent
      = (f.gatekeeper_strategy query f.agents).foldl
          (fun d agent => dictSet d agent.id
            (f.agentSlices
              (f.slice_augmentation_strategy agent (f.beacon_strategy query)) agent))
          [] := by
  simp only [AgentFabric.handle_request]
  rw [if_neg (by simpa [List.isEmpty_iff] using h)]
  dsimp only
  rw [foldl_agentStep_slices]
  simp [initialTrace]

/-- Lookup of a key none of the folded agents sets is unchanged. -/
theorem dictGet_foldl_dictSet_not_mem {β : Type} (g : Agent → β) :
    ∀ (agents : List Agent) (d : List (String × β)) (k : String),
      (∀ x ∈ agents, x.id ≠ k) →
      dictGet (agents.foldl (fun acc x => dictSet acc x.id (g x)) d) k
        = dictGet d k := by
  intro agents
  induction agents with
  | nil => intro d k _; rfl
  | cons b rest ih =>
    intro d k hk
    rw [List.foldl_cons, ih _ _ (fun x hx => hk x (List.mem_cons_of_mem b hx)),
      dictGet_dictSet_ne _ _ _ _ (Ne.symm (hk b (List.mem_cons_self b rest)))]

/-- With pairwise distinct agent ids, the folded dictionary maps each
agent's id to that agent's value. -/
theorem dictGet_foldl_dictSet_mem {β : Type} (g : Agent → β) :
    ∀ (agents : List Agent) (d : List (String × β)) (a : Agent),
      a ∈ agents → (agents.map Agent.id).Nodup →
      dictGet (agents.foldl (fun acc x => dictSet acc x.id (g x)) d) a.id
        = some (g a) := by
  intro agents
  induction agents with
  | nil => intro d a ha _; exact absurd ha (List.not_mem_nil a)
  | cons b rest ih =>
    intro d a ha hnd
    simp only [List.map_cons, List.nodup_cons] at hnd
    rcases List.mem_cons.mp ha with h1 | h2
    · subst h1
      rw [List.foldl_cons,
        dictGet_foldl_dictSet_not_mem g rest _ a.id ?_, dictGet_dictSet_self]
      intro x hx hxa
      exact hnd.1 (by rw [← hxa]; exact List.mem_map_of_mem Agent.id hx)
    · rw [List.foldl_cons]
      exact ih _ a h2 hnd.2

/-- Key presence in the slice-gathering fold, relative to its accumulator. -/
theorem dictHasKey_slicesAux (f : AgentFabric) (agent_beacons : Beacons) :
    ∀ (ids : List String) (s : List (String × List Claim)) (k : String),
      dictHasKey (ids.foldl
          (fun slices_for_agent vault_id =>
            match dictGet f.vaults vault_id with
            | some vault =>
                dictSet slices_for_agent vault_id (vault.get_slice agent_beacons 5)
            | none => slices_for_agent)
          s) k = true
        ↔ (dictHasKey s k = true ∨ (k ∈ ids ∧ dictHasKey f.vaults k = true)) := by
  intro ids
  induction ids with
  | nil => intro s k; simp
  | cons vid rest ih =>
    intro s k
    rw [List.foldl_cons]
    cases hv : dictGet f.vaults vid with
    | none =>
      simp only [hv]
      rw [ih]
      constructor
      · rintro (h | ⟨hm, hk⟩)
        · exact Or.inl h
        · exact Or.inr ⟨List.mem_cons_of_mem vid hm, hk⟩
      · rintro (h | ⟨hm, hk⟩)
        · exact Or.inl h
        · rcases List.mem_cons.mp hm with h1 | h1
          · subst h1
            simp [dictHasKey, hv] at hk
          · exact Or.inr ⟨h1, hk⟩
    | some vault =>
      simp only [hv]
      rw [ih, dictHasKey_dictSet_iff]
      constructor
      · rintro ((h1 | h2) | ⟨hm, hk⟩)
        · subst h1
          exact Or.inr ⟨List.mem_cons_self k rest, by simp [dictHasKey, hv]⟩
        · exact Or.inl h2
        · exact Or.inr ⟨List.mem_cons_of_mem vid hm, hk⟩
      · rintro (h | ⟨hm, hk⟩)
        · exact Or.inl (Or.inr h)
        · rcases List.mem_cons.mp hm with h1 | h1
          · exact Or.inl (Or.inl h1)
          · exact Or.inr ⟨h1, hk⟩

/-- An agent's gathered slice mapping has a key exactly for the agent's
vault ids that are present in the registry. -/
theorem dictHasKey_agentSlices (f : AgentFabric) (agent_beacons : Beacons)
    (agent : Agent) (k : String) :
    dictHasKey (f.agentSlices agent_beacons agent) k = true
      ↔ (k ∈ agent.vault_ids ∧ dictHasKey f.vaults k = true) := by
  rw [AgentFabric.agentSlices, dictHasKey_slicesAux]
  simp [dictHasKey, dictGet]

/-! Theorems settling the claims about `handle_request` and `Agent.run`. -/

/-- C2: with a non-empty selection, the final response is the blank-line
join of one labeled contribution per selected agent, in selection order;
each contribution wraps exactly the text the generation collaborator
returned for that agent's prompt (an error-marker text included, untouched),
and depends on no other agent's output. -/
theorem handle_request_joins_contributions (f : AgentFabric)
    (llm : String → String) (query : String)
    (h : f.gatekeeper_strategy query f.agents ≠ []) :
    (f.handle_request llm query).1 =
      String.intercalate "\n\n"
        ((f.gatekeeper_strategy query f.agents).map
          (f.agentContribution llm query (f.beacon_strategy query))) := by
  simp only [AgentFabric.handle_request]
  rw [if_neg (by simpa [List.isEmpty_iff] using h)]
  dsimp only
  rw [foldl_agentStep_snd]
  simp

/-- Witness for C2: two selected agents, the generation collaborator
returning the source's error marker. -/
theorem handle_request_joins_contributions_witness :
    (wFabric.handle_request wLlmErr "the query").1 =
      String.intercalate "\n\n"
        ((wFabric.gatekeeper_strategy "the query" wFabric.agents).map
          (wFabric.agentContribution wLlmErr "the query"
            (wFabric.beacon_strategy "the query"))) :=
  handle_request_joins_contributions wFabric wLlmErr "the query" (by decide)

/-- C3: an empty selection short-circuits — the fixed no-agent message is
returned with a trace holding no base beacons, no slices and no partial
results, and the outcome is a normal return value. -/
theorem empty_selection_short_circuit (f : AgentFabric) (llm : String → String)
    (query : String) (h : f.gatekeeper_strategy query f.agents = []) :
    (f.handle_request llm query).1
        = "No relevant agent could be found to handle this request." ∧
    (f.handle_request llm query).2.1.partial_results = [] ∧
    (f.handle_request llm query).2.1.slices_per_agent = [] ∧
    (f.handle_request llm query).2.1.base_beacons = [] := by
  simp [AgentFabric.handle_request, h, initialTrace]

/-- Witness for C3 on the fabric whose selection strategy wakes no agent. -/
theorem empty_selection_short_circuit_witness :
    (eFabric.handle_request okLlm "q").1
        = "No relevant agent could be found to handle this request." ∧
    (eFabric.handle_request okLlm "q").2.1.partial_results = [] ∧
    (eFabric.handle_request okLlm "q").2.1.slices_per_agent = [] ∧
    (eFabric.handle_request okLlm "q").2.1.base_beacons = [] :=
  empty_selection_short_circuit eFabric okLlm "q" rfl

/-- C5 counterexample: when the selection strategy returns two distinct
agents sharing one id, the second agent's slice mapping overwrites the
first's trace entry, so the first agent's registered vault id has no key in
the trace entry under that agent's id — the claim as stated fails. -/
theorem slices_keys_counterexample :
    ¬ (∀ agent ∈ ((dupFabric.handle_request okLlm "q").2.1).woken_agents,
        ∃ entry,
          dictGet ((dupFabric.handle_request okLlm "q").2.1).slices_per_agent
              agent.id = some entry ∧
          ∀ vault_id, (dictHasKey entry vault_id = true ↔
            (vault_id ∈ agent.vault_ids ∧
              dictHasKey dupFabric.vaults vault_id = true))) := by
  intro hcl
  have h1 : dupAgent1 ∈ ((dupFabric.handle_request okLlm "q").2.1).woken_agents := by
    decide
  obtain ⟨entry, hget, hkeys⟩ := hcl dupAgent1 h1
  have hx : dictGet ((dupFabric.handle_request okLlm "q").2.1).slices_per_agent
      dupAgent1.id = some [] := by decide
  rw [hx] at hget
  have hentry : entry = [] := by
    cases hget
    rfl
  subst hentry
  have hkey := (hkeys "V").mpr ⟨by decide, by decide⟩
  exact absurd hkey (by decide)

/-- C5 as amended: provided the selected agents have pairwise distinct ids,
each selected agent's trace entry `slices_per_agent[agent.id]` exists and
has a key for a vault id exactly when that id is listed in the agent's
`vault_ids` and present in the vault registry; an unregistered id is
silently skipped with no entry and no error. -/
theorem slices_keys_of_distinct_ids (f : AgentFabric) (llm : String → String)
    (query : String)
    (hnd : ((f.gatekeeper_strategy query f.agents).map Agent.id).Nodup) :
    ∀ agent ∈ f.gatekeeper_strategy query f.agents, ∃ entry,
      dictGet ((f.handle_request llm query).2.1).slices_per_agent agent.id
          = some entry ∧
      ∀ vault_id, (dictHasKey entry vault_id = true ↔
        (vault_id ∈ agent.vault_ids ∧ dictHasKey f.vaults vault_id = true)) := by
  intro agent ha
  have hne : f.gatekeeper_strategy query f.agents ≠ [] := List.ne_nil_of_mem ha
  refine ⟨f.agentSlices
      (f.slice_augmentation_strategy agent (f.beacon_strategy query)) agent, ?_, ?_⟩
  · rw [handle_request_trace_slices f llm query hne]
    exact dictGet_foldl_dictSet_mem _ _ _ agent ha hnd
  · intro vault_id
    exact dictHasKey_agentSlices f _ agent vault_id

/-- Witness for the amended C5 on the two-agent fabric with distinct ids. -/
theorem slices_keys_of_distinct_ids_witness :
    ∃ entry,
      dictGet ((wFabric.handle_request okLlm "q").2.1).slices_per_agent wAgentA.id
          = some entry ∧
      ∀ vault_id, (dictHasKey entry vault_id = true ↔
        (vault_id ∈ wAgentA.vault_ids ∧ dictHasKey wFabric.vaults vault_id = true)) :=
  slices_keys_of_distinct_ids wFabric okLlm "q" (by decide) wAgentA (by decide)

end FabricCore


